import Mathlib

/-!
Verification development for the `good_bots` package (`good_bots/core.py`).

The Python source is shallowly embedded: JSON values become the inductive
type `Json`; Python functions become Lean functions; a Python function that
can raise an uncaught exception is embedded as an `Option`-valued function
where `none` marks the raise; I/O (HTTP fetches, the file system, the clock)
is abstracted into explicit parameters (a fetch oracle, the parsed
additional-bots document, a timestamp string, a write-success flag).
Side-channel diagnostics (prints to stderr/stdout) are not modelled; only
returned values and the written artifact are.

String primitives are re-implemented over `List Char` with structural
recursion so that every definition evaluates inside the kernel; they follow
Python `str` semantics (comparison is lexicographic on code points).
-/

/-! ## String primitives (Python `str` semantics, kernel-computable) -/

/-- Lexicographic strict order on char lists by code point: Python's `<`
on strings. -/
def lexLt : List Char → List Char → Bool
  | [], [] => false
  | [], _ :: _ => true
  | _ :: _, [] => false
  | a :: as, b :: bs => if a < b then true else if a = b then lexLt as bs else false

/-- Python `a < b` on strings. -/
def strLtB (a b : String) : Bool := lexLt a.data b.data

/-- Python `a <= b` on strings (total order, so `¬ (b < a)`). -/
def strLeB (a b : String) : Bool := !(strLtB b a)

/-- Propositional form of `strLtB`. -/
def strLtP (a b : String) : Prop := strLtB a b = true

/-- Propositional form of `strLeB`. -/
def strLeP (a b : String) : Prop := strLeB a b = true

instance : DecidableRel strLtP := fun a b => by unfold strLtP; infer_instance

instance : DecidableRel strLeP := fun a b => by unfold strLeP; infer_instance

/-- Python's `str.split(sep)` for a one-character separator (`"".split(".") = [""]`,
separators at the ends produce empty pieces). -/
def splitOnCh (sep : Char) : List Char → List (List Char)
  | [] => [[]]
  | c :: cs =>
    if c = sep then [] :: splitOnCh sep cs
    else
      match splitOnCh sep cs with
      | r :: rs => (c :: r) :: rs
      | [] => [[c]]

/-- Whether `p` is an initial segment of `l`. -/
def startsWithLC : List Char → List Char → Bool
  | [], _ => true
  | _ :: _, [] => false
  | a :: as, b :: bs => (a = b) && startsWithLC as bs

/-- Python's substring test `p in l` on strings (empty `p` is contained in
everything). -/
def containsLC (p : List Char) : List Char → Bool
  | [] => startsWithLC p []
  | c :: t => startsWithLC p (c :: t) || containsLC p t

/-- Value of an ASCII-digit char list read as a decimal number. -/
def digitsToNat : List Char → Nat → Nat
  | [], acc => acc
  | c :: cs, acc => digitsToNat cs (acc * 10 + (c.toNat - '0'.toNat))

/-- Python's `str.replace('-', ' ')`: for one-character pattern and
replacement this is a character map. -/
def replaceDashSpace (s : String) : String :=
  ⟨s.data.map (fun c => if c = '-' then ' ' else c)⟩

/-- Python's `str.title()` for ASCII text: a letter is uppercased when the
previous character is not a letter, lowercased otherwise (the source only
title-cases ASCII source ids and types; Unicode cased characters other than
ASCII letters are not modelled). -/
def pyTitleAux : Bool → List Char → List Char
  | _, [] => []
  | prevAlpha, c :: cs =>
    if c.isAlpha then
      (if prevAlpha then c.toLower else c.toUpper) :: pyTitleAux true cs
    else c :: pyTitleAux false cs

/-- Python's `str.title()` (ASCII). -/
def pyTitle (s : String) : String := ⟨pyTitleAux false s.data⟩

/-! ## IPv4 network parsing

Embedding of the part of CPython's `ipaddress` library that
`core.cidr_to_range` exercises: `IPv4Network(cidr, strict=False)` on a
string argument, and the `network_address` / `broadcast_address`
properties. `none` models a raised `ValueError` (caught by the caller). -/

/-- CPython `ipaddress._parse_octet`: a nonempty string of at most three
ASCII digits, no leading zero unless the string is exactly "0", value at
most 255. -/
def parseOctet (cs : List Char) : Option Nat :=
  if cs = [] then none
  else if !(cs.all Char.isDigit) then none
  else if cs.length > 3 then none
  else if cs ≠ ['0'] && cs.headD '0' = '0' then none
  else
    let v := digitsToNat cs 0
    if v > 255 then none else some v

/-- CPython `ipaddress.IPv4Address._ip_int_from_string`: exactly four
dot-separated octets, big-endian packed. -/
def ipFromStr (s : String) : Option Nat :=
  match (splitOnCh '.' s.data).mapM parseOctet with
  | some [a, b, c, d] => some (((a * 256 + b) * 256 + c) * 256 + d)
  | _ => none

/-- CPython `ipaddress._count_righthand_zero_bits` specialised to 32 bits:
number of trailing zero bits, and 32 for the number 0 (first argument is
fuel, always called with 32). -/
def trailZeros : Nat → Nat → Nat
  | 0, _ => 0
  | fuel + 1, n => if n % 2 = 1 then 0 else 1 + trailZeros fuel (n / 2)

/-- CPython `ipaddress._IPAddressBase._prefix_from_ip_int`: a 32-bit word of
the shape `1^p 0^(32-p)` yields `p`, anything else raises. -/
def maskLenOfWord (w : Nat) : Option Nat :=
  let tz := trailZeros 32 w
  let p := 32 - tz
  if w >>> tz = 2 ^ p - 1 then some p else none

/-- CPython `ipaddress._IPAddressBase._prefix_from_ip_string`: parse as a
dotted quad, accept it as a netmask, else as a hostmask. -/
def maskLenOfQuad (s : String) : Option Nat :=
  match ipFromStr s with
  | none => none
  | some w => (maskLenOfWord w).orElse (fun _ => maskLenOfWord (w ^^^ (2 ^ 32 - 1)))

/-- CPython `ipaddress._IPAddressBase._prefix_from_prefix_string`: an
all-ASCII-digit string (leading zeros allowed here) whose value is at most
32. -/
def maskLenOfDigits (s : String) : Option Nat :=
  if s.data ≠ [] && s.data.all Char.isDigit then
    let v := digitsToNat s.data 0
    if v ≤ 32 then some v else none
  else none

/-- CPython `ipaddress.IPv4Network._make_netmask` on a string argument:
prefix-length form first, dotted netmask/hostmask form second. -/
def makeNetmask (s : String) : Option Nat :=
  (maskLenOfDigits s).orElse (fun _ => maskLenOfQuad s)

/-- CPython `ipaddress._split_addr_prefix` followed by address and netmask
parsing: at most one '/', missing prefix defaults to 32. Yields the address
word and the prefix length. -/
def parseNet (s : String) : Option (Nat × Nat) :=
  match splitOnCh '/' s.data with
  | [a] => (ipFromStr ⟨a⟩).map (fun ip => (ip, 32))
  | [a, p] =>
    match ipFromStr ⟨a⟩, makeNetmask ⟨p⟩ with
    | some ip, some pl => some (ip, pl)
    | _, _ => none
  | _ => none

/-- Dotted-quad rendering of a 32-bit word (`str(IPv4Address(w))`). -/
def ipStr (w : Nat) : String :=
  toString (w / 2 ^ 24 % 256) ++ "." ++ toString (w / 2 ^ 16 % 256) ++ "." ++
    toString (w / 2 ^ 8 % 256) ++ "." ++ toString (w % 256)

/-- Network address of `(ip, pl)` under `strict=False`: host bits masked
away. -/
def netAddr (ip pl : Nat) : Nat := ip &&& ((2 ^ pl - 1) <<< (32 - pl))

/-- Broadcast address of `(ip, pl)`: network address with all host bits
set. -/
def bcastAddr (ip pl : Nat) : Nat := netAddr ip pl ||| (2 ^ (32 - pl) - 1)

/-- `core.cidr_to_range`: convert CIDR notation to `start_ip-end_ip` format;
`none` models the caught `ValueError` path that prints a diagnostic and
returns `None`. -/
def cidr_to_range (cidr : String) : Option String :=
  match parseNet cidr with
  | some (ip, pl) => some (ipStr (netAddr ip pl) ++ "-" ++ ipStr (bcastAddr ip pl))
  | none => none

example : cidr_to_range "192.0.2.0/24" = some "192.0.2.0-192.0.2.255" := by decide
example : cidr_to_range "192.0.2.1/32" = some "192.0.2.1-192.0.2.1" := by decide
example : cidr_to_range "invalid" = none := by decide
example : cidr_to_range "2001:db8::/32" = none := by decide
example : cidr_to_range "10.1.2.3/8" = some "10.0.0.0-10.255.255.255" := by decide
example : cidr_to_range "10.0.0.0/255.0.0.0" = some "10.0.0.0-10.255.255.255" := by decide
example : cidr_to_range "10.0.0.0/0.0.0.255" = some "10.0.0.0-10.0.0.255" := by decide
example : cidr_to_range "10.0.0.0" = some "10.0.0.0-10.0.0.0" := by decide
example : cidr_to_range "10.0.0.0/33" = none := by decide
example : cidr_to_range "10.0.0.256/8" = none := by decide
example : cidr_to_range "10.0.00.1/8" = none := by decide
example : cidr_to_range "1/2/3" = none := by decide
example : cidr_to_range "10.0.0.0/024" = some "10.0.0.0-10.0.0.255" := by decide
example : cidr_to_range "1.2.3.4/00" = some "0.0.0.0-255.255.255.255" := by decide
example : cidr_to_range "10.0.0.0/255.255.255.255" = some "10.0.0.0-10.0.0.0" := by decide
example : cidr_to_range "10.0.0.0/0.0.0.0" = some "0.0.0.0-255.255.255.255" := by decide
example : cidr_to_range "10.0.0.0/" = none := by decide
example : cidr_to_range "" = none := by decide
example : cidr_to_range "10.0.0.0/+24" = none := by decide
example : cidr_to_range "10.0.0.0/255.0.255.0" = none := by decide

/-! ## JSON values and the Python operations the source applies to them -/

/-- A parsed JSON document. `obj` models a Python dict with string keys as
an association list (a parsed JSON object has no duplicate keys; callers
build objects with distinct keys). -/
inductive Json where
  | null
  | bool (b : Bool)
  | num (n : Int)
  | str (s : String)
  | arr (elems : List Json)
  | obj (fields : List (String × Json))

/-- Python truthiness of a JSON value (`if not main_data`, `if endpoint_data`,
`if ip_ranges`). -/
def Json.truthy : Json → Bool
  | .null => false
  | .bool b => b
  | .num n => n ≠ 0
  | .str s => s ≠ ""
  | .arr xs => !xs.isEmpty
  | .obj fs => !fs.isEmpty

/-- Python `j == "k"` for a string literal: true exactly for the equal
string (values of other JSON types never equal a string). -/
def Json.eqStr : Json → String → Bool
  | .str t, s => t = s
  | _, _ => false

/-- Python `"k" in j`: key test on a dict, element test on a list,
substring test on a string; `none` models the `TypeError` raised on the
remaining types. -/
def Json.hasMem (j : Json) (k : String) : Option Bool :=
  match j with
  | .obj fs => some (fs.any (fun p => p.1 = k))
  | .arr xs => some (xs.any (fun x => x.eqStr k))
  | .str s => some (containsLC k.data s.data)
  | _ => none

/-- Python `j["k"]` for a string key: defined on dicts that hold the key;
`none` models the `TypeError`/`KeyError` raised otherwise (in the source it
is only evaluated after a successful membership test, so on a dict the key
is present). -/
def Json.item (j : Json) (k : String) : Option Json :=
  match j with
  | .obj fs => fs.lookup k
  | _ => none

/-- Python `j.get(k, d)` : defined on dicts; `none` models the
`AttributeError` raised on any other type. -/
def Json.getD (j : Json) (k : String) (d : Json) : Option Json :=
  match j with
  | .obj fs => some ((fs.lookup k).getD d)
  | _ => none

/-- Python `for x in j`: a list yields its elements, a string its
characters (as one-character strings), a dict its keys; `none` models the
`TypeError` on the remaining types. -/
def Json.iterList : Json → Option (List Json)
  | .arr xs => some xs
  | .str s => some (s.data.map (fun c => Json.str ⟨[c]⟩))
  | .obj fs => some (fs.map (fun p => Json.str p.1))
  | _ => none

/-! ## `core.extract_ipv4_addresses` -/

/-- The body of the `for prefix in data['prefixes']` loop: entries that are
not dicts, lack `ipv4Prefix`, hold a non-string `ipv4Prefix`, or whose CIDR
fails to normalize are skipped; successful conversions are appended in
document order. (`cidr_to_range` never returns an empty string, so the
source's truthiness test on its result is a `some`-test here.) -/
def extractFromList : List Json → List String
  | [] => []
  | p :: ps =>
    match p with
    | .obj fs =>
      match fs.lookup "ipv4Prefix" with
      | some (.str cidr) =>
        match cidr_to_range cidr with
        | some r => r :: extractFromList ps
        | none => extractFromList ps
      | _ => extractFromList ps
    | _ => extractFromList ps

/-- `core.extract_ipv4_addresses`: defensive extraction of normalized IPv4
ranges from a prefix document. -/
def extract_ipv4_addresses (data : Json) : List String :=
  match data with
  | .obj fs =>
    match fs.lookup "prefixes" with
    | none => []
    | some (.arr ps) => extractFromList ps
    | some _ => []
  | _ => []

example :
    extract_ipv4_addresses (.obj [("prefixes", .arr
      [.obj [("ipv4Prefix", .str "192.0.2.0/24")],
       .obj [("ipv4Prefix", .str "2001:db8::/32")],
       .obj [("invalid", .str "x")],
       .str "not_a_dict"])]) = ["192.0.2.0-192.0.2.255"] := by decide

/-! ## Sorting and dict operations -/

/-- Python `sorted(set(l))` on a list of strings: the distinct elements in
ascending lexicographic order (this characterizes Python's result uniquely,
whatever iteration order the set hands to `sorted`). -/
def sortedSet (l : List String) : List String := List.insertionSort strLeP l.dedup

/-- Python dict assignment `m[k] = v` on a string-keyed dict modelled as an
association list with distinct keys: replace in place if the key exists,
append otherwise. -/
def dictUpdate : List (String × List String) → String → List String →
    List (String × List String)
  | [], k, v => [(k, v)]
  | (k', v') :: rest, k, v =>
    if k' = k then (k, v) :: rest else (k', v') :: dictUpdate rest k v

/-- Key order on dict items. Python's `sorted(d.items())` compares the
`(key, value)` tuples, but a dict's keys are distinct, so on the dicts the
source sorts the comparison never reaches the values and the result is
exactly the key-ascending order. -/
def pairLeP (p q : String × List String) : Prop := strLeP p.1 q.1

instance : DecidableRel pairLeP := fun p q => by unfold pairLeP; infer_instance

/-- Python `sorted(d.items())` (see `pairLeP`). -/
def sortedItems (m : List (String × List String)) : List (String × List String) :=
  List.insertionSort pairLeP m

/-! ## `core.load_additional_bots`

Only the pure tail of the Python function is embedded (lines 113-129): the
part from the parsed configuration document to the returned mapping. The
preceding package-resource/file fallback chain is file-system I/O; its
result, the parsed document, is this function's argument. A non-string
`name` value would be used by Python as a dict key of another type; that is
not modelled (`none`), and no claim exercises it. -/

/-- Body of the `for ip_range in bot.get('ip_ranges', [])` loop: a CIDR
(contains '/') passes through `cidr_to_range` and is dropped when that
fails; anything else is appended verbatim. `none` models the `TypeError`
raised by `'/' in ip_range` on a non-string element (elements that are
containers would instead raise at `set()`; both are collapsed to `none`). -/
def rangeStep (acc : List String) (r : Json) : Option (List String) :=
  match r with
  | .str s =>
    if s.data.contains '/' then
      match cidr_to_range s with
      | some conv => some (acc ++ [conv])
      | none => some acc
    else some (acc ++ [s])
  | _ => none

/-- The `ip_ranges` loop, folded over the iterated elements. -/
def buildRanges : List Json → List String → Option (List String)
  | [], acc => some acc
  | r :: rs, acc =>
    match rangeStep acc r with
    | none => none
    | some acc' => buildRanges rs acc'

/-- Body of the `for bot in config.get('additional_bots', [])` loop. -/
def botStep (acc : List (String × List String)) (bot : Json) :
    Option (List (String × List String)) :=
  match bot.getD "name" (.str "Unknown Bot") with
  | none => none
  | some (.str bot_name) =>
    match bot.getD "ip_ranges" (.arr []) with
    | none => none
    | some rangesJ =>
      match rangesJ.iterList with
      | none => none
      | some items =>
        match buildRanges items [] with
        | none => none
        | some rs =>
          some (if rs.isEmpty then acc else dictUpdate acc bot_name (sortedSet rs))
  | some _ => none

/-- The `additional_bots` loop, folded over the iterated elements. -/
def buildBots : List Json → List (String × List String) →
    Option (List (String × List String))
  | [], acc => some acc
  | b :: bs, acc =>
    match botStep acc b with
    | none => none
    | some acc' => buildBots bs acc'

/-- `core.load_additional_bots`, from the parsed configuration document. -/
def load_additional_bots (config : Json) : Option (List (String × List String)) :=
  match config.getD "additional_bots" (.arr []) with
  | none => none
  | some botsJ =>
    match botsJ.iterList with
    | none => none
    | some bots => buildBots bots []

/-! ## `core.generate_bot_ips`

The aggregator is embedded as a pure function of: a fetch oracle
(`core.fetch_json`, which returns the parsed document or `None`, never
raising — its argument is the JSON value the source passes as a URL), the
already-loaded additional-bots mapping, the wall-clock timestamp string,
and a flag saying whether the final write succeeds. The written artifact is
modelled atomically: `none` means the output file was never opened. -/

def mainUrl : String := "https://search-engine-ip-tracker.merj.com/status"

/-- Effect of one iteration of the `for item in main_data['data']` loop,
independent of the accumulated state: `none` is an uncaught exception,
`some none` a skipped entry (missing `source.url`, failed or falsy fetch,
no ranges extracted), `some (some (name, rs))` an entry that stores
`sorted(set(rs))` under `name` and adds `len(rs)` to the running total. -/
def itemOutcome (fetch : Json → Option Json) (item : Json) :
    Option (Option (String × List String)) :=
  match item.hasMem "source" with
  | none => none
  | some false => some none
  | some true =>
    match item.item "source" with
    | none => none
    | some src =>
      match src.hasMem "url" with
      | none => none
      | some false => some none
      | some true =>
        match src.item "url" with
        | none => none
        | some url =>
          match src.getD "id" (.str "unknown"), src.getD "type" (.str "unknown") with
          | some source_id, some source_type =>
            match fetch url with
            | none => some none
            | some ed =>
              if ed.truthy then
                let rs := extract_ipv4_addresses ed
                if rs.isEmpty then some none
                else
                  match source_type, source_id with
                  | .str t, .str i =>
                    some (some (pyTitle t ++ " - " ++ pyTitle (replaceDashSpace i), rs))
                  | _, _ => none
              else some none
          | _, _ => none

/-- One iteration of the endpoint loop applied to the state
`(bot_ip_ranges, total_ranges)`. -/
def processItem (fetch : Json → Option Json)
    (st : List (String × List String) × Nat) (item : Json) :
    Option (List (String × List String) × Nat) :=
  match itemOutcome fetch item with
  | none => none
  | some none => some st
  | some (some (name, rs)) =>
    some (dictUpdate st.1 name (sortedSet rs), st.2 + rs.length)

/-- The endpoint loop. -/
def processItems (fetch : Json → Option Json) :
    List (String × List String) × Nat → List Json →
    Option (List (String × List String) × Nat)
  | st, [] => some st
  | st, item :: rest =>
    match processItem fetch st item with
    | none => none
    | some st' => processItems fetch st' rest

/-- `sum(len(ranges) for ranges in additional_bots.values())`. -/
def totalOf (m : List (String × List String)) : Nat :=
  (m.map (fun p => p.2.length)).sum

/-- Result of the aggregation phase (everything before rendering):
`fail` is the early `return 1`, `crash` an uncaught exception. -/
inductive CoreResult where
  | fail
  | crash
  | success (bots : List (String × List String)) (total : Nat)
deriving DecidableEq

/-- Lines 138-186 of `core.generate_bot_ips`: index fetch and guard
(`if not main_data or 'data' not in main_data`), then the endpoint loop
seeded with the additional bots and their combined range count. -/
def generateCore (fetch : Json → Option Json)
    (additional : List (String × List String)) : CoreResult :=
  match fetch (.str mainUrl) with
  | none => .fail
  | some main_data =>
    if !main_data.truthy then .fail
    else
      match main_data.hasMem "data" with
      | none => .crash
      | some false => .fail
      | some true =>
        match main_data.item "data" with
        | none => .crash
        | some dataVal =>
          match dataVal.iterList with
          | none => .crash
          | some items =>
            match processItems fetch (additional, totalOf additional) items with
            | none => .crash
            | some (m, total) => .success m total

/-- One rendered range line: `    '{ip_range}',`. -/
def renderRanges : List String → String
  | [] => ""
  | r :: rs => "    '" ++ r ++ "',\n" ++ renderRanges rs

/-- One bot section: name comment, range lines, blank separator. -/
def renderBots : List (String × List String) → String
  | [] => ""
  | (name, rs) :: rest => "    # " ++ name ++ "\n" ++ renderRanges rs ++ "\n" ++ renderBots rest

/-- The fixed artifact text up to the generation timestamp. -/
def tsHeader : String :=
  "# Bot IP addresses for django-turnstile-site-protect\n# Generated on "

/-- The fixed artifact text between the timestamp and the bot sections. -/
def tsAfter : String :=
  "\n# Source: https://search-engine-ip-tracker.merj.com/status\n\nGOOD_BOTS = [\n"

/-- Lines 188-207: the rendered output artifact. -/
def renderOutput (m : List (String × List String)) (total : Nat) (t : String) : String :=
  tsHeader ++ t ++ tsAfter ++ renderBots (sortedItems m) ++
    "]\n\n# Total IP ranges: " ++ toString total ++ "\n"

/-- `core.generate_bot_ips` return value and written artifact: `ret status
written` (`written = none` when the output file was never opened), `crash`
for an uncaught exception. A failed write returns 1 (the partial contents
the failed write may leave are not modelled; no claim depends on them). -/
inductive GenResult where
  | ret (status : Nat) (written : Option String)
  | crash
deriving DecidableEq

/-- `core.generate_bot_ips`. -/
def generate_bot_ips (fetch : Json → Option Json)
    (additional : List (String × List String)) (t : String) (writeOk : Bool) :
    GenResult :=
  match generateCore fetch additional with
  | .fail => .ret 1 none
  | .crash => .crash
  | .success m total =>
    if writeOk then .ret 0 (some (renderOutput m total t)) else .ret 1 none

/-! ## Spec-side definitions and concrete scenarios used by the claims -/

/-- Fetch oracle for the C1 counterexample: the index endpoint returns
`{"data": "x"}` — a truthy document whose `data` member is a string, not a
list — and every other fetch fails. -/
def c1fetch : Json → Option Json
  | .str u => if u = mainUrl then some (.obj [("data", .str "x")]) else none
  | _ => none

/-- Per-source document for C10: two identical CIDR entries. -/
def c10doc : Json := .obj [("prefixes", .arr
  [.obj [("ipv4Prefix", .str "192.0.2.0/24")],
   .obj [("ipv4Prefix", .str "192.0.2.0/24")]])]

/-- The single index entry for C10. -/
def c10item : Json := .obj [("source", .obj
  [("url", .str "https://u"), ("id", .str "test"), ("type", .str "bot")])]

/-- Fetch oracle for C10: an index with one source whose prefix document
holds a duplicated CIDR. -/
def c10fetch : Json → Option Json
  | .str u =>
    if u = mainUrl then some (.obj [("data", .arr [c10item])])
    else if u = "https://u" then some c10doc
    else none
  | _ => none

/-- Source object of the failing C5 entry. -/
def c5src : Json := .obj [("url", .str "https://b"), ("id", .str "b"), ("type", .str "bot")]

/-- The C5 entry whose per-source fetch fails. -/
def c5bad : Json := .obj [("source", c5src)]

/-- The C5 entry whose per-source fetch succeeds. -/
def c5good : Json := .obj [("source", .obj
  [("url", .str "https://a"), ("id", .str "a"), ("type", .str "bot")])]

/-- Prefix document of the good C5 source. -/
def c5doc : Json := .obj [("prefixes", .arr [.obj [("ipv4Prefix", .str "192.0.2.0/24")]])]

/-- Fetch oracle for the C5 witness: the index lists a good and a bad
source; the bad source's URL yields nothing. -/
def c5fetch : Json → Option Json
  | .str u =>
    if u = mainUrl then some (.obj [("data", .arr [c5good, c5bad])])
    else if u = "https://a" then some c5doc
    else none
  | _ => none

/-- Source object of the C5 entry whose extraction fails. -/
def c5esrc : Json := .obj [("url", .str "https://e"), ("id", .str "e"), ("type", .str "bot")]

/-- The C5 entry whose fetch succeeds but whose document yields no
ranges. -/
def c5empty : Json := .obj [("source", c5esrc)]

/-- Second fetch oracle for the C5 witness: both sources fetch, but the
second one's truthy document has an empty `prefixes` list, so extraction
yields no ranges (the `if ipv4_ranges:` skip path). -/
def c5fetch2 : Json → Option Json
  | .str u =>
    if u = mainUrl then some (.obj [("data", .arr [c5good, c5empty])])
    else if u = "https://a" then some c5doc
    else if u = "https://e" then some (.obj [("prefixes", .arr [])])
    else none
  | _ => none

/-- Additional-bots document for the C6 witness. -/
def c6config : Json := .obj [("additional_bots", .arr
  [.obj [("name", .str "Extra"), ("ip_ranges", .arr [.str "1.2.3.4"])]])]

/-- Whether a JSON value is a string. -/
def isStrJ : Json → Bool
  | .str _ => true
  | _ => false

/-- The string a JSON value holds, if it is one. -/
def asStr : Json → Option String
  | .str s => some s
  | _ => none

/-- Well-formed additional-bots entry, per the documented shape: a dict
whose `name` (when present) is a string and whose `ip_ranges` (when
present) is a list of strings. -/
def WFBot (b : Json) : Bool :=
  match b with
  | .obj fs =>
    (match fs.lookup "name" with
     | none => true
     | some (.str _) => true
     | some _ => false) &&
    (match fs.lookup "ip_ranges" with
     | none => true
     | some (.arr l) => l.all isStrJ
     | some _ => false)
  | _ => false

/-- The display name of an additional-bots entry: its `name` string, or
`"Unknown Bot"` when absent. -/
def botName (b : Json) : String :=
  match b with
  | .obj fs =>
    match fs.lookup "name" with
    | some (.str s) => s
    | _ => "Unknown Bot"
  | _ => "Unknown Bot"

/-- The string elements of an entry's `ip_ranges` list. -/
def botStrRanges (b : Json) : List String :=
  match b with
  | .obj fs =>
    match fs.lookup "ip_ranges" with
    | some (.arr l) => l.filterMap asStr
    | _ => []
  | _ => []

/-- Claim-side description of the loader's per-entry processing: an element
containing '/' goes through the Range Normalizer and is dropped when that
fails; any other element passes through unchanged. -/
def specProcess (l : List String) : List String :=
  l.filterMap (fun s => if s.data.contains '/' then cidr_to_range s else some s)

/-- Additional-bots entries for the C7 witness: a named bot with a CIDR
and a literal range, and a nameless bot whose only element is an invalid
CIDR (processed list empty, so it is omitted). -/
def c7bots : List Json :=
  [.obj [("name", .str "A"), ("ip_ranges", .arr [.str "10.0.0.0/8", .str "1.2.3.4"])],
   .obj [("ip_ranges", .arr [.str "bad/c"])]]

/-! ## Order facts about the lexicographic string order -/

theorem lexLt_irrefl : ∀ l : List Char, lexLt l l = false
  | [] => rfl
  | c :: cs => by simp [lexLt, lexLt_irrefl cs]

theorem lexLt_cons (x y : Char) (xs ys : List Char) :
    lexLt (x :: xs) (y :: ys) =
      if x < y then true else if x = y then lexLt xs ys else false := rfl

theorem lexLt_asymm : ∀ {a b : List Char}, lexLt a b = true → lexLt b a = false
  | [], [], h => by simp [lexLt] at h
  | [], _ :: _, _ => rfl
  | _ :: _, [], h => by simp [lexLt] at h
  | x :: xs, y :: ys, h => by
    rw [lexLt_cons] at h
    rw [lexLt_cons]
    by_cases hxy : x < y
    · rw [if_neg (asymm hxy), if_neg (Ne.symm (ne_of_lt hxy))]
    · rw [if_neg hxy] at h
      by_cases hxe : x = y
      · subst hxe
        rw [if_pos rfl] at h
        rw [if_neg (lt_irrefl x), if_pos rfl]
        exact lexLt_asymm h
      · rw [if_neg hxe] at h
        exact absurd h (by simp)

theorem lexLt_trans : ∀ {a b c : List Char},
    lexLt a b = true → lexLt b c = true → lexLt a c = true
  | [], b, [], _, h2 => by cases b <;> simp [lexLt] at h2
  | [], _, _ :: _, _, _ => rfl
  | _ :: _, [], _, h1, _ => by simp [lexLt] at h1
  | _ :: _, y :: ys, [], _, h2 => by simp [lexLt] at h2
  | x :: xs, y :: ys, z :: zs, h1, h2 => by
    rw [lexLt_cons] at h1 h2
    rw [lexLt_cons]
    by_cases hxy : x < y
    · by_cases hyz : y < z
      · rw [if_pos (lt_trans hxy hyz)]
      · by_cases hyze : y = z
        · rw [if_pos (hyze ▸ hxy)]
        · rw [if_neg hyz, if_neg hyze] at h2
          exact absurd h2 (by simp)
    · by_cases hxye : x = y
      · subst hxye
        rw [if_neg hxy, if_pos rfl] at h1
        by_cases hyz : x < z
        · rw [if_pos hyz]
        · by_cases hyze : x = z
          · subst hyze
            rw [if_neg (lt_irrefl x), if_pos rfl] at h2 ⊢
            exact lexLt_trans h1 h2
          · rw [if_neg hyz, if_neg hyze] at h2
            exact absurd h2 (by simp)
      · rw [if_neg hxy, if_neg hxye] at h1
        exact absurd h1 (by simp)

theorem lexLt_eq_of_not : ∀ {a b : List Char},
    lexLt a b = false → lexLt b a = false → a = b
  | [], [], _, _ => rfl
  | [], _ :: _, h1, _ => by simp [lexLt] at h1
  | _ :: _, [], _, h2 => by simp [lexLt] at h2
  | x :: xs, y :: ys, h1, h2 => by
    rw [lexLt_cons] at h1 h2
    by_cases hxy : x < y
    · rw [if_pos hxy] at h1
      exact absurd h1 (by simp)
    · by_cases hyx : y < x
      · rw [if_pos hyx] at h2
        exact absurd h2 (by simp)
      · have hxe : x = y := by
          rcases lt_trichotomy x y with h | h | h
          · exact absurd h hxy
          · exact h
          · exact absurd h hyx
        subst hxe
        rw [if_neg hxy, if_pos rfl] at h1
        rw [if_neg hyx, if_pos rfl] at h2
        exact congrArg (x :: ·) (lexLt_eq_of_not h1 h2)

theorem strLeP_iff {a b : String} : strLeP a b ↔ lexLt b.data a.data = false := by
  unfold strLeP strLeB strLtB
  cases lexLt b.data a.data <;> simp

theorem strLtP_iff {a b : String} : strLtP a b ↔ lexLt a.data b.data = true := Iff.rfl

instance : IsTotal String strLeP :=
  ⟨fun a b => by
    rw [strLeP_iff, strLeP_iff]
    cases h : lexLt b.data a.data with
    | false => exact Or.inl rfl
    | true => exact Or.inr (lexLt_asymm h)⟩

instance : IsTrans String strLeP :=
  ⟨fun a b c hab hbc => by
    rw [strLeP_iff] at hab hbc ⊢
    cases h : lexLt c.data a.data with
    | false => rfl
    | true =>
      cases h2 : lexLt a.data b.data with
      | true => exact absurd (lexLt_trans h h2) (by simp [hbc])
      | false => exact absurd ((lexLt_eq_of_not h2 hab) ▸ h) (by simp [hbc])⟩

theorem strLeP_antisymm {a b : String} (h1 : strLeP a b) (h2 : strLeP b a) : a = b := by
  rw [strLeP_iff] at h1 h2
  exact String.ext (lexLt_eq_of_not h2 h1)

theorem strLtP_of_leP_ne {a b : String} (h1 : strLeP a b) (h2 : a ≠ b) : strLtP a b := by
  rw [strLeP_iff] at h1
  rw [strLtP_iff]
  cases h : lexLt a.data b.data with
  | true => rfl
  | false => exact absurd (String.ext (lexLt_eq_of_not h h1)) h2

instance : IsTotal (String × List String) pairLeP :=
  ⟨fun a b => total_of strLeP a.1 b.1⟩

instance : IsTrans (String × List String) pairLeP :=
  ⟨fun _ _ _ hab hbc => Trans.trans (r := strLeP) (s := strLeP) hab hbc⟩

/-! ## Facts about `sortedSet` and `sortedItems` -/

theorem sortedSet_perm (l : List String) : (sortedSet l).Perm l.dedup :=
  List.perm_insertionSort strLeP l.dedup

theorem sortedSet_nodup (l : List String) : (sortedSet l).Nodup :=
  ((sortedSet_perm l).nodup_iff).mpr l.nodup_dedup

theorem sortedSet_mem {a : String} {l : List String} : a ∈ sortedSet l ↔ a ∈ l :=
  ((sortedSet_perm l).mem_iff).trans List.mem_dedup

theorem sortedSet_sorted_le (l : List String) : (sortedSet l).Sorted strLeP :=
  List.sorted_insertionSort strLeP l.dedup

theorem sortedSet_sorted_lt (l : List String) : (sortedSet l).Sorted strLtP :=
  ((sortedSet_sorted_le l).and (sortedSet_nodup l)).imp
    (fun h => strLtP_of_leP_ne h.1 h.2)

theorem sortedSet_ne_nil {l : List String} (h : l ≠ []) : sortedSet l ≠ [] := by
  intro hc
  have h1 : l.dedup.Perm ([] : List String) := hc ▸ (sortedSet_perm l).symm
  exact h ((List.dedup_eq_nil l).mp h1.eq_nil)

theorem sortedItems_perm (m : List (String × List String)) : (sortedItems m).Perm m :=
  List.perm_insertionSort pairLeP m

theorem sortedItems_sorted (m : List (String × List String)) :
    (sortedItems m).Sorted pairLeP :=
  List.sorted_insertionSort pairLeP m

theorem pairwise_ne_of_nodup_keys {m : List (String × List String)}
    (h : (m.map Prod.fst).Nodup) : m.Pairwise (fun p q => p.1 ≠ q.1) :=
  List.pairwise_map.mp h

/-- With distinct keys, the rendered item list is strictly ascending in the
bot name. -/
theorem sortedItems_strict {m : List (String × List String)}
    (h : (m.map Prod.fst).Nodup) :
    (sortedItems m).Pairwise (fun p q => strLtP p.1 q.1) := by
  have hnd : ((sortedItems m).map Prod.fst).Nodup :=
    (((sortedItems_perm m).map Prod.fst).nodup_iff).mpr h
  exact ((sortedItems_sorted m).and (pairwise_ne_of_nodup_keys hnd)).imp
    (fun hh => strLtP_of_leP_ne hh.1 hh.2)

/-! ## Facts about `dictUpdate` and the endpoint loop -/

theorem dictUpdate_keys (m : List (String × List String)) (k : String) (v : List String) :
    (dictUpdate m k v).map Prod.fst =
      if k ∈ m.map Prod.fst then m.map Prod.fst else m.map Prod.fst ++ [k] := by
  induction m with
  | nil => simp [dictUpdate]
  | cons p rest ih =>
    by_cases h : p.1 = k
    · simp [dictUpdate, h]
    · simp only [dictUpdate, if_neg h, List.map_cons, ih]
      have : (k ∈ p.1 :: rest.map Prod.fst) ↔ (k ∈ rest.map Prod.fst) := by
        simp [List.mem_cons, (Ne.symm h : k ≠ p.1)]
      by_cases h2 : k ∈ rest.map Prod.fst
      · simp [h2, this]
      · simp [h2, this]

theorem dictUpdate_keys_nodup {m : List (String × List String)} {k : String}
    {v : List String} (h : (m.map Prod.fst).Nodup) :
    ((dictUpdate m k v).map Prod.fst).Nodup := by
  rw [dictUpdate_keys]
  by_cases h2 : k ∈ m.map Prod.fst
  · simpa [h2]
  · simpa [h2, List.nodup_append] using h

theorem dictUpdate_mem {m : List (String × List String)} {k : String}
    {v : List String} {p : String × List String} (h : p ∈ dictUpdate m k v) :
    p = (k, v) ∨ p ∈ m := by
  induction m with
  | nil => simpa [dictUpdate] using h
  | cons q rest ih =>
    by_cases h2 : q.1 = k
    · rcases (by simpa [dictUpdate, h2] using h) with h3 | h3
      · exact Or.inl h3
      · exact Or.inr (List.mem_cons_of_mem q h3)
    · rcases (by simpa [dictUpdate, h2] using h) with h3 | h3
      · exact Or.inr (h3 ▸ List.mem_cons_self q rest)
      · rcases ih h3 with h4 | h4
        · exact Or.inl h4
        · exact Or.inr (List.mem_cons_of_mem q h4)

theorem dictUpdate_lookup_self (m : List (String × List String)) (k : String)
    (v : List String) : (dictUpdate m k v).lookup k = some v := by
  induction m with
  | nil => simp [dictUpdate]
  | cons q rest ih =>
    by_cases h : q.1 = k
    · simp [dictUpdate, h]
    · have hbeq : (k == q.1) = false := beq_eq_false_iff_ne.mpr (Ne.symm h)
      simp [dictUpdate, h, List.lookup, hbeq, ih]

theorem dictUpdate_key_mem (m : List (String × List String)) (k : String)
    (v : List String) : k ∈ (dictUpdate m k v).map Prod.fst := by
  rw [dictUpdate_keys]
  by_cases h : k ∈ m.map Prod.fst <;> simp [h]

/-- A skipped entry leaves the state unchanged. -/
theorem processItem_skip {fetch : Json → Option Json} {item : Json}
    (st : List (String × List String) × Nat)
    (h : itemOutcome fetch item = some none) : processItem fetch st item = some st := by
  simp [processItem, h]

/-- An entry that produces `(name, rs)` stores the deduplicated sorted list
and adds the raw length. -/
theorem processItem_store {fetch : Json → Option Json} {item : Json}
    {name : String} {rs : List String}
    (st : List (String × List String) × Nat)
    (h : itemOutcome fetch item = some (some (name, rs))) :
    processItem fetch st item = some (dictUpdate st.1 name (sortedSet rs), st.2 + rs.length) := by
  simp [processItem, h]

theorem processItems_append (fetch : Json → Option Json)
    (st : List (String × List String) × Nat) (xs ys : List Json) :
    processItems fetch st (xs ++ ys) =
      match processItems fetch st xs with
      | none => none
      | some st' => processItems fetch st' ys := by
  induction xs generalizing st with
  | nil => simp [processItems]
  | cons x xs ih =>
    simp only [List.cons_append, processItems]
    cases processItem fetch st x with
    | none => rfl
    | some st' => exact ih st'

theorem processItem_nodup {fetch : Json → Option Json} {item : Json}
    {st st' : List (String × List String) × Nat}
    (h : processItem fetch st item = some st')
    (hk : (st.1.map Prod.fst).Nodup) : (st'.1.map Prod.fst).Nodup := by
  unfold processItem at h
  cases ho : itemOutcome fetch item with
  | none => simp [ho] at h
  | some o =>
    cases o with
    | none => simp [ho] at h; exact h ▸ hk
    | some p =>
      simp [ho] at h
      exact h ▸ dictUpdate_keys_nodup hk

theorem processItem_values {fetch : Json → Option Json} {item : Json}
    {st st' : List (String × List String) × Nat}
    (h : processItem fetch st item = some st')
    (hv : ∀ p ∈ st.1, (p.2 : List String).Sorted strLtP) :
    ∀ p ∈ st'.1, (p.2 : List String).Sorted strLtP := by
  unfold processItem at h
  cases ho : itemOutcome fetch item with
  | none => simp [ho] at h
  | some o =>
    cases o with
    | none => simp [ho] at h; exact h ▸ hv
    | some q =>
      simp [ho] at h
      intro p hp
      rcases dictUpdate_mem (h ▸ hp) with h2 | h2
      · exact h2 ▸ sortedSet_sorted_lt q.2
      · exact hv p h2

theorem processItems_nodup {fetch : Json → Option Json} {items : List Json}
    {st st' : List (String × List String) × Nat}
    (h : processItems fetch st items = some st')
    (hk : (st.1.map Prod.fst).Nodup) : (st'.1.map Prod.fst).Nodup := by
  induction items generalizing st with
  | nil => simp [processItems] at h; exact h ▸ hk
  | cons x xs ih =>
    simp only [processItems] at h
    cases h2 : processItem fetch st x with
    | none => simp [h2] at h
    | some st1 =>
      rw [h2] at h
      exact ih h (processItem_nodup h2 hk)

theorem processItems_values {fetch : Json → Option Json} {items : List Json}
    {st st' : List (String × List String) × Nat}
    (h : processItems fetch st items = some st')
    (hv : ∀ p ∈ st.1, (p.2 : List String).Sorted strLtP) :
    ∀ p ∈ st'.1, (p.2 : List String).Sorted strLtP := by
  induction items generalizing st with
  | nil => simp [processItems] at h; exact h ▸ hv
  | cons x xs ih =>
    simp only [processItems] at h
    cases h2 : processItem fetch st x with
    | none => simp [h2] at h
    | some st1 =>
      rw [h2] at h
      exact ih h (processItem_values h2 hv)

/-! ## Claims -/

/-- C2: the Range Normalizer `cidr_to_range` is a pure function with
`cidr_to_range "192.0.2.0/24" = "192.0.2.0-192.0.2.255"` and
`cidr_to_range "192.0.2.1/32" = "192.0.2.1-192.0.2.1"`; every string that
parses as an IPv4 network under `strict=False` semantics yields
`"<network_address>-<broadcast_address>"`, and every string that does not
parse (malformed input, and IPv6 CIDRs such as `"2001:db8::/32"`) yields
the absent value (the `ValueError` is caught, not propagated). -/
theorem c2_range_normalizer :
    cidr_to_range "192.0.2.0/24" = some "192.0.2.0-192.0.2.255" ∧
    cidr_to_range "192.0.2.1/32" = some "192.0.2.1-192.0.2.1" ∧
    (∀ s ip pl, parseNet s = some (ip, pl) →
      cidr_to_range s = some (ipStr (netAddr ip pl) ++ "-" ++ ipStr (bcastAddr ip pl))) ∧
    (∀ s, parseNet s = none → cidr_to_range s = none) ∧
    cidr_to_range "2001:db8::/32" = none := by
  refine ⟨by decide, by decide, ?_, ?_, by decide⟩
  · intro s ip pl h
    simp [cidr_to_range, h]
  · intro s h
    simp [cidr_to_range, h]

/-- Witness for C2 at concrete inputs: `"10.1.2.3/8"` parses (host bits
nonzero, accepted by `strict=False`) and normalizes to the network-broadcast
pair; `"2001:db8::/32"` does not parse and fails. -/
theorem c2_witness :
    cidr_to_range "10.1.2.3/8" = some (ipStr (netAddr 167838211 8) ++ "-" ++ ipStr (bcastAddr 167838211 8)) ∧
    cidr_to_range "not-a-cidr" = none :=
  ⟨c2_range_normalizer.2.2.1 "10.1.2.3/8" 167838211 8 (by decide),
   c2_range_normalizer.2.2.2.1 "not-a-cidr" (by decide)⟩

/-- C3: the Prefix Extractor on the document
`{"prefixes":[{"ipv4Prefix":"192.0.2.0/24"},{"ipv4Prefix":"2001:db8::/32"},{"invalid":"x"},"not_a_dict"]}`
returns exactly `["192.0.2.0-192.0.2.255"]`: the IPv6 prefix, the entry
without `ipv4Prefix` and the non-dict entry are all skipped. -/
theorem c3_extractor_example :
    extract_ipv4_addresses (.obj [("prefixes", .arr
      [.obj [("ipv4Prefix", .str "192.0.2.0/24")],
       .obj [("ipv4Prefix", .str "2001:db8::/32")],
       .obj [("invalid", .str "x")],
       .str "not_a_dict"])]) = ["192.0.2.0-192.0.2.255"] := by decide

/-- C4: the Prefix Extractor returns the empty list on every input that is
not a dict, every dict without a `prefixes` field, and every dict whose
`prefixes` field is not a list (and, being embedded as a total function, it
raises nothing). -/
theorem c4_extractor_defensive :
    (∀ j : Json, (∀ fs, j ≠ .obj fs) → extract_ipv4_addresses j = []) ∧
    (∀ fs : List (String × Json), fs.lookup "prefixes" = none →
      extract_ipv4_addresses (.obj fs) = []) ∧
    (∀ fs (v : Json), fs.lookup "prefixes" = some v → (∀ xs, v ≠ .arr xs) →
      extract_ipv4_addresses (.obj fs) = []) := by
  refine ⟨?_, ?_, ?_⟩
  · intro j h
    cases j with
    | obj fs => exact absurd rfl (h fs)
    | _ => rfl
  · intro fs h
    simp [extract_ipv4_addresses, h]
  · intro fs v h hv
    cases v with
    | arr xs => exact absurd rfl (hv xs)
    | _ => simp [extract_ipv4_addresses, h]

/-- Witness for C4 at concrete inputs: a string document, a dict without
`prefixes`, and a dict whose `prefixes` is a number. -/
theorem c4_witness :
    extract_ipv4_addresses (.str "nope") = [] ∧
    extract_ipv4_addresses (.obj [("other", .num 1)]) = [] ∧
    extract_ipv4_addresses (.obj [("prefixes", .num 1)]) = [] :=
  ⟨c4_extractor_defensive.1 (.str "nope") (fun _ h => Json.noConfusion h),
   c4_extractor_defensive.2.1 [("other", .num 1)] rfl,
   c4_extractor_defensive.2.2 [("prefixes", .num 1)] (.num 1) rfl
     (fun _ h => Json.noConfusion h)⟩

set_option maxRecDepth 16384 in
/-- Counterexample to C1 as stated: the fetched index document
`{"data": "x"}` lacks a `data` *list* (its `data` member is a string), yet
`generate` does not return status 1 with no output — it iterates the
string's characters, skips them (a one-character string has no `source`
member), writes the artifact and returns 0. -/
theorem c1_counterexample :
    (∀ xs, Json.item (.obj [("data", .str "x")]) "data" ≠ some (.arr xs)) ∧
    c1fetch (.str mainUrl) = some (.obj [("data", .str "x")]) ∧
    generate_bot_ips c1fetch [] "2025-01-01 00:00:00" true ≠ .ret 1 none ∧
    generate_bot_ips c1fetch [] "2025-01-01 00:00:00" true =
      .ret 0 (some (renderOutput [] 0 "2025-01-01 00:00:00")) := by
  refine ⟨?_, rfl, ?_, ?_⟩
  · intro xs h
    simp [Json.item, List.lookup] at h
  · decide
  · decide

/-- C1 (amended): if the index fetch returns an absent value, or the fetched
index document is falsy, or its membership test `'data' in main_data`
yields false (in particular every dict without a `data` member), then
`generate` returns status 1 and never opens the output file. (As stated the
claim is false: a document whose `data` member exists but is not a list is
not rejected — see `c1_counterexample`.) -/
theorem c1_index_failure (fetch : Json → Option Json)
    (add : List (String × List String)) (t : String) (w : Bool)
    (h : fetch (.str mainUrl) = none ∨
      ∃ d, fetch (.str mainUrl) = some d ∧
        (d.truthy = false ∨ d.hasMem "data" = some false)) :
    generate_bot_ips fetch add t w = .ret 1 none := by
  have hcore : generateCore fetch add = .fail := by
    unfold generateCore
    rcases h with h | ⟨d, hd, h2 | h2⟩
    · simp [h]
    · simp [hd, h2]
    · simp only [hd, h2]
      cases hT : d.truthy <;> simp [hT]
  unfold generate_bot_ips
  rw [hcore]

/-- Witness for C1 (amended): an index fetch that returns nothing, and one
that returns a dict without a `data` member. -/
theorem c1_witness :
    generate_bot_ips (fun _ => none) [] "t" true = .ret 1 none ∧
    generate_bot_ips (fun _ => some (.obj [("other", .num 1)])) [] "t" false = .ret 1 none :=
  ⟨c1_index_failure (fun _ => none) [] "t" true (Or.inl rfl),
   c1_index_failure (fun _ => some (.obj [("other", .num 1)])) [] "t" false
     (Or.inr ⟨.obj [("other", .num 1)], rfl, Or.inr (by decide)⟩)⟩

/-- C9: the pipeline is deterministic modulo the timestamp: two runs with
the same fetch results, additional bots and write outcome either produce
written artifacts of the form `tsHeader ++ timestamp ++ post` with the
same `post` (byte-identical except for the generation-timestamp line), or
produce exactly the same result (failure, crash, or failed write — no
artifact either way). -/
theorem c9_determinism (fetch : Json → Option Json)
    (add : List (String × List String)) (w : Bool) (t1 t2 : String) :
    (∃ post : String,
      generate_bot_ips fetch add t1 w = .ret 0 (some (tsHeader ++ t1 ++ post)) ∧
      generate_bot_ips fetch add t2 w = .ret 0 (some (tsHeader ++ t2 ++ post))) ∨
    generate_bot_ips fetch add t1 w = generate_bot_ips fetch add t2 w := by
  unfold generate_bot_ips
  cases generateCore fetch add with
  | fail => exact Or.inr rfl
  | crash => exact Or.inr rfl
  | success m total =>
    cases w with
    | false => exact Or.inr rfl
    | true =>
      refine Or.inl ⟨tsAfter ++ renderBots (sortedItems m) ++
        "]\n\n# Total IP ranges: " ++ toString total ++ "\n", ?_, ?_⟩ <;>
      · simp only [renderOutput]
        refine congrArg (fun c => GenResult.ret 0 (some c)) (String.ext ?_)
        simp [String.data_append]

set_option maxRecDepth 16384 in
/-- C10 (implicit): the running total is incremented by the length of each
extracted range list before deduplication and is a plain addition (never
decremented on overwrite); concretely, a source whose prefixes hold a
duplicate CIDR makes the total in the trailing comment (2) strictly exceed
the number of quoted range lines rendered (1, the sum of the lengths of the
final mapping's lists). -/
theorem c10_total_overcount :
    (∀ (fetch : Json → Option Json) st (item : Json) (name : String) (rs : List String),
      itemOutcome fetch item = some (some (name, rs)) →
      processItem fetch st item =
        some (dictUpdate st.1 name (sortedSet rs), st.2 + rs.length)) ∧
    generateCore c10fetch [] = .success [("Bot - Test", ["192.0.2.0-192.0.2.255"])] 2 ∧
    totalOf [("Bot - Test", ["192.0.2.0-192.0.2.255"])] = 1 ∧
    generate_bot_ips c10fetch [] "2025-01-01 00:00:00" true =
      .ret 0 (some (renderOutput [("Bot - Test", ["192.0.2.0-192.0.2.255"])] 2
        "2025-01-01 00:00:00")) :=
  ⟨fun _ st _ _ _ h => processItem_store st h, by decide, by decide, by decide⟩

set_option maxRecDepth 16384 in
/-- Witness for C10: the single C10 source produces the name `Bot - Test`
with two raw ranges; the stored list is deduplicated to one element while
the total advances by two. -/
theorem c10_witness :
    processItem c10fetch ([], 0) c10item =
      some ([("Bot - Test", ["192.0.2.0-192.0.2.255"])], 2) :=
  (c10_total_overcount.1 c10fetch ([], 0) c10item "Bot - Test"
      ["192.0.2.0-192.0.2.255", "192.0.2.0-192.0.2.255"] (by decide)).trans
    (by decide)

/-- When no entry crashes, the endpoint loop completes. -/
theorem processItems_total {fetch : Json → Option Json} {items : List Json}
    (h : ∀ i ∈ items, itemOutcome fetch i ≠ none)
    (st : List (String × List String) × Nat) :
    ∃ st', processItems fetch st items = some st' := by
  induction items generalizing st with
  | nil => exact ⟨st, rfl⟩
  | cons x xs ih =>
    have hx := h x (List.mem_cons_self x xs)
    simp only [processItems]
    cases ho : itemOutcome fetch x with
    | none => exact absurd ho hx
    | some o =>
      cases o with
      | none =>
        rw [processItem_skip st ho]
        exact ih (fun i hi => h i (List.mem_cons_of_mem x hi)) st
      | some p =>
        obtain ⟨name, rs⟩ := p
        rw [processItem_store st ho]
        exact ih (fun i hi => h i (List.mem_cons_of_mem x hi)) _

/-- C8: merging is last-write-wins dict assignment. For any run state
reached after any earlier inputs (the additional bots, which seed the
mapping, and any prefix `xs` of the index entries — either of which may
already hold the same display name), processing one more entry that
produces `(name, rs)` leaves exactly one binding for `name`, and it holds
that entry's deduplicated sorted range list. -/
theorem c8_last_write_wins (fetch : Json → Option Json)
    (add : List (String × List String)) (xs : List Json) (item : Json)
    (name : String) (rs : List String)
    (st : List (String × List String) × Nat)
    (hk : (add.map Prod.fst).Nodup)
    (hxs : processItems fetch (add, totalOf add) xs = some st)
    (hitem : itemOutcome fetch item = some (some (name, rs))) :
    ∃ m total,
      processItems fetch (add, totalOf add) (xs ++ [item]) = some (m, total) ∧
      m.lookup name = some (sortedSet rs) ∧
      (m.map Prod.fst).count name = 1 := by
  have happ := processItems_append fetch (add, totalOf add) xs [item]
  rw [hxs] at happ
  have hone : processItems fetch st [item] =
      some (dictUpdate st.1 name (sortedSet rs), st.2 + rs.length) := by
    simp [processItems, processItem_store st hitem]
  refine ⟨dictUpdate st.1 name (sortedSet rs), st.2 + rs.length, ?_, ?_, ?_⟩
  · rw [happ]
    exact hone
  · exact dictUpdate_lookup_self st.1 name (sortedSet rs)
  · have hnd : (st.1.map Prod.fst).Nodup := processItems_nodup hxs hk
    exact List.count_eq_one_of_mem (dictUpdate_keys_nodup hnd)
      (dictUpdate_key_mem st.1 name (sortedSet rs))

set_option maxRecDepth 16384 in
/-- Witness for C8: the additional bots already hold the name `Bot - Test`;
processing the C10 index entry (same derived name) leaves one binding for
it, holding the entry's deduplicated sorted ranges. -/
theorem c8_witness :
    ∃ m total,
      processItems c10fetch ([("Bot - Test", ["9.9.9.9"])],
        totalOf [("Bot - Test", ["9.9.9.9"])]) ([] ++ [c10item]) = some (m, total) ∧
      m.lookup "Bot - Test" =
        some (sortedSet ["192.0.2.0-192.0.2.255", "192.0.2.0-192.0.2.255"]) ∧
      (m.map Prod.fst).count "Bot - Test" = 1 :=
  c8_last_write_wins c10fetch [("Bot - Test", ["9.9.9.9"])] [] c10item
    "Bot - Test" ["192.0.2.0-192.0.2.255", "192.0.2.0-192.0.2.255"]
    ([("Bot - Test", ["9.9.9.9"])], totalOf [("Bot - Test", ["9.9.9.9"])])
    (by decide) rfl (by decide)

/-- A successful lookup makes the dict's key-membership test succeed. -/
theorem any_eq_key_of_lookup {beta : Type} {fs : List (String × beta)} {k : String}
    {v : beta} (h : List.lookup k fs = some v) :
    fs.any (fun p => p.1 = k) = true := by
  induction fs with
  | nil => simp [List.lookup] at h
  | cons q rest ih =>
    obtain ⟨qk, qv⟩ := q
    rw [List.any_cons, Bool.or_eq_true]
    rw [List.lookup] at h
    cases hq : (k == qk) with
    | true =>
      exact Or.inl (decide_eq_true ((beq_iff_eq.mp hq).symm : qk = k))
    | false =>
      rw [hq] at h
      exact Or.inr (ih h)

/-- C5: once the index fetch succeeds with a document whose `data` member
is a list, a failure to fetch or extract any individual per-source document
is non-fatal: given well-formed sibling entries (`itemOutcome` does not
crash on them), an entry `j` whose source URL fetch returns the absent
value, or returns a falsy document, or returns a document from which no
ranges are extracted, contributes nothing — the run processes exactly the
remaining entries `xs ++ ys`, writes the artifact rendered from their
result, and returns status 0 (assuming the final write succeeds). -/
theorem c5_per_source_nonfatal (fetch : Json → Option Json)
    (add : List (String × List String)) (t : String)
    (d : Json) (xs ys : List Json) (j src url : Json)
    (hmain : fetch (.str mainUrl) = some d)
    (hdata : d.item "data" = some (.arr (xs ++ j :: ys)))
    (hmem : j.hasMem "source" = some true)
    (hsrc : j.item "source" = some src)
    (humem : src.hasMem "url" = some true)
    (hurl : src.item "url" = some url)
    (hfail : fetch url = none ∨
      ∃ ed, fetch url = some ed ∧
        (ed.truthy = false ∨ extract_ipv4_addresses ed = []))
    (hwf : ∀ i ∈ xs ++ ys, itemOutcome fetch i ≠ none) :
    ∃ m total,
      processItems fetch (add, totalOf add) (xs ++ ys) = some (m, total) ∧
      generate_bot_ips fetch add t true = .ret 0 (some (renderOutput m total t)) := by
  obtain ⟨sfs, rfl⟩ : ∃ fs, src = .obj fs := by
    cases src with
    | obj fs => exact ⟨fs, rfl⟩
    | _ => simp [Json.item] at hurl
  obtain ⟨dfs, rfl⟩ : ∃ fs, d = .obj fs := by
    cases d with
    | obj fs => exact ⟨fs, rfl⟩
    | _ => simp [Json.item] at hdata
  have hlook : List.lookup "data" dfs = some (.arr (xs ++ j :: ys)) := hdata
  have hskip : itemOutcome fetch j = some none := by
    unfold itemOutcome
    simp only [hmem, hsrc, humem, hurl, Json.getD]
    rcases hfail with hf | ⟨ed, hed, hc | hc⟩
    · simp [hf]
    · simp [hed, hc]
    · simp only [hed]
      cases hT : ed.truthy with
      | false => simp [hT]
      | true => simp [hT, hc]
  have htruthy : (Json.obj dfs).truthy = true := by
    cases dfs with
    | nil => simp [List.lookup] at hlook
    | cons q rest => rfl
  have hmemd : (Json.obj dfs).hasMem "data" = some true := by
    simp only [Json.hasMem]
    exact congrArg some (any_eq_key_of_lookup hlook)
  obtain ⟨st, hst⟩ := processItems_total hwf (add, totalOf add)
  obtain ⟨m, total⟩ := st
  have hxs_wf : ∀ i ∈ xs, itemOutcome fetch i ≠ none :=
    fun i hi => hwf i (List.mem_append_left ys hi)
  obtain ⟨st1, hst1⟩ := processItems_total hxs_wf (add, totalOf add)
  have hys : processItems fetch st1 ys = some (m, total) := by
    have h := hst
    rw [processItems_append, hst1] at h
    exact h
  have hfull : processItems fetch (add, totalOf add) (xs ++ j :: ys) = some (m, total) := by
    rw [processItems_append, hst1]
    simp only [processItems]
    rw [processItem_skip st1 hskip]
    exact hys
  refine ⟨m, total, hst, ?_⟩
  have hcore : generateCore fetch add = .success m total := by
    unfold generateCore
    simp only [hmain, htruthy, hmemd, Json.item, hlook, Json.iterList]
    simp [hfull]
  unfold generate_bot_ips
  rw [hcore]
  rfl

set_option maxRecDepth 16384 in
/-- Witness for C5 at both failure modes the claim names: a source whose
URL fetch returns nothing (`c5fetch`), and a source whose fetch succeeds
but whose document yields no extracted ranges (`c5fetch2`); in both runs
only the good source is processed and the run succeeds. -/
theorem c5_witness :
    (∃ m total,
      processItems c5fetch ([], totalOf []) ([c5good] ++ []) = some (m, total) ∧
      generate_bot_ips c5fetch [] "t" true = .ret 0 (some (renderOutput m total "t"))) ∧
    (∃ m total,
      processItems c5fetch2 ([], totalOf []) ([c5good] ++ []) = some (m, total) ∧
      generate_bot_ips c5fetch2 [] "t" true = .ret 0 (some (renderOutput m total "t"))) :=
  ⟨c5_per_source_nonfatal c5fetch [] "t" (.obj [("data", .arr [c5good, c5bad])])
      [c5good] [] c5bad c5src (.str "https://b")
      rfl rfl (by decide) rfl (by decide) rfl (Or.inl rfl) (by decide),
   c5_per_source_nonfatal c5fetch2 [] "t" (.obj [("data", .arr [c5good, c5empty])])
      [c5good] [] c5empty c5esrc (.str "https://e")
      rfl rfl (by decide) rfl (by decide) rfl
      (Or.inr ⟨.obj [("prefixes", .arr [])], rfl, Or.inr (by decide)⟩) (by decide)⟩

/-- On a list of strings the `ip_ranges` fold computes exactly
`specProcess`. -/
theorem buildRanges_str : ∀ (l : List Json) (acc : List String),
    l.all isStrJ = true →
    buildRanges l acc = some (acc ++ specProcess (l.filterMap asStr))
  | [], acc, _ => by simp [buildRanges, specProcess]
  | j :: rest, acc, h => by
    rw [List.all_cons, Bool.and_eq_true] at h
    obtain ⟨s, rfl⟩ : ∃ s, j = .str s := by
      cases j <;> first | exact ⟨_, rfl⟩ | simp [isStrJ] at h
    simp only [buildRanges, rangeStep]
    by_cases hc : s.data.contains '/'
    · rw [if_pos hc]
      cases hcr : cidr_to_range s with
      | some conv =>
        show buildRanges rest (acc ++ [conv]) = _
        rw [buildRanges_str rest (acc ++ [conv]) h.2]
        have hm : '/' ∈ s.data := by simpa using hc
        simp [specProcess, List.filterMap_cons, asStr, hcr, if_pos hm]
      | none =>
        show buildRanges rest acc = _
        rw [buildRanges_str rest acc h.2]
        have hm : '/' ∈ s.data := by simpa using hc
        simp [specProcess, List.filterMap_cons, asStr, hcr, if_pos hm]
    · rw [if_neg hc]
      show buildRanges rest (acc ++ [s]) = _
      rw [buildRanges_str rest (acc ++ [s]) h.2]
      have hm : ¬ ('/' ∈ s.data) := by simpa using hc
      simp [specProcess, List.filterMap_cons, asStr, if_neg hm]

/-- Any successful `botStep` either leaves the mapping unchanged or stores
a nonempty deduplicated sorted list under some name. -/
theorem botStep_shape {acc acc' : List (String × List String)} {bot : Json}
    (h : botStep acc bot = some acc') :
    acc' = acc ∨ ∃ name rs, rs ≠ [] ∧ acc' = dictUpdate acc name (sortedSet rs) := by
  unfold botStep at h
  cases h1 : bot.getD "name" (.str "Unknown Bot") with
  | none => simp only [h1] at h; exact Option.noConfusion h
  | some nameJ =>
    simp only [h1] at h
    cases nameJ with
    | str bot_name =>
      cases h2 : bot.getD "ip_ranges" (.arr []) with
      | none => simp only [h2] at h; exact Option.noConfusion h
      | some rangesJ =>
        simp only [h2] at h
        cases h3 : rangesJ.iterList with
        | none => simp only [h3] at h; exact Option.noConfusion h
        | some items =>
          simp only [h3] at h
          cases h4 : buildRanges items [] with
          | none => simp only [h4] at h; exact Option.noConfusion h
          | some rs =>
            simp only [h4] at h
            cases hrs : rs.isEmpty with
            | true =>
              rw [hrs] at h
              simp at h
              exact Or.inl h.symm
            | false =>
              rw [hrs] at h
              simp at h
              refine Or.inr ⟨bot_name, rs, ?_, h.symm⟩
              intro hnil
              rw [hnil] at hrs
              simp at hrs
    | null => simp at h
    | bool b => simp at h
    | num n => simp at h
    | arr l => simp at h
    | obj fs => simp at h

/-- Keys stay distinct through the additional-bots fold. -/
theorem buildBots_nodup : ∀ {bots : List Json} {acc m : List (String × List String)},
    buildBots bots acc = some m → (acc.map Prod.fst).Nodup → (m.map Prod.fst).Nodup
  | [], acc, m, h, hk => by simp [buildBots] at h; exact h ▸ hk
  | b :: bs, acc, m, h, hk => by
    simp only [buildBots] at h
    cases h1 : botStep acc b with
    | none => rw [h1] at h; exact absurd h (by simp)
    | some acc' =>
      rw [h1] at h
      rcases botStep_shape h1 with h2 | ⟨name, rs, _, h2⟩
      · exact buildBots_nodup h (h2 ▸ hk)
      · exact buildBots_nodup h (h2 ▸ dictUpdate_keys_nodup hk)

/-- Every value the additional-bots fold stores is a nonempty strictly
sorted list. -/
theorem buildBots_values : ∀ {bots : List Json} {acc m : List (String × List String)},
    buildBots bots acc = some m →
    (∀ p ∈ acc, (p.2 : List String).Sorted strLtP ∧ p.2 ≠ []) →
    ∀ p ∈ m, (p.2 : List String).Sorted strLtP ∧ p.2 ≠ []
  | [], acc, m, h, hv => by simp [buildBots] at h; exact h ▸ hv
  | b :: bs, acc, m, h, hv => by
    simp only [buildBots] at h
    cases h1 : botStep acc b with
    | none => rw [h1] at h; exact absurd h (by simp)
    | some acc' =>
      rw [h1] at h
      rcases botStep_shape h1 with h2 | ⟨name, rs, hne, h2⟩
      · exact buildBots_values h (h2 ▸ hv)
      · refine buildBots_values h ?_
        subst h2
        intro p hp
        rcases dictUpdate_mem hp with h3 | h3
        · exact h3 ▸ ⟨sortedSet_sorted_lt rs, sortedSet_ne_nil hne⟩
        · exact hv p h3

/-- A successful load yields a mapping with distinct keys whose values are
nonempty strictly sorted lists. -/
theorem load_inv {config : Json} {add : List (String × List String)}
    (h : load_additional_bots config = some add) :
    (add.map Prod.fst).Nodup ∧
    ∀ p ∈ add, (p.2 : List String).Sorted strLtP ∧ p.2 ≠ [] := by
  unfold load_additional_bots at h
  cases h1 : config.getD "additional_bots" (.arr []) with
  | none => simp only [h1] at h; exact Option.noConfusion h
  | some botsJ =>
    simp only [h1] at h
    cases h2 : botsJ.iterList with
    | none => simp only [h2] at h; exact Option.noConfusion h
    | some bots =>
      simp only [h2] at h
      exact ⟨buildBots_nodup h (by simp), buildBots_values h (by simp)⟩

/-- C6: for every final mapping handed to the renderer (additional bots
from a successful load, merged with any processed index entries), the item
list the renderer iterates is strictly ascending in bot name, and every
bot's range list is strictly ascending lexicographically — hence pairwise
distinct and sorted; `renderOutput` emits the sections in exactly this
order. -/
theorem c6_rendered_order (config : Json) (fetch : Json → Option Json)
    (add m : List (String × List String)) (items : List Json) (total : Nat)
    (hload : load_additional_bots config = some add)
    (h : processItems fetch (add, totalOf add) items = some (m, total)) :
    (sortedItems m).Pairwise (fun p q => strLtP p.1 q.1) ∧
    ∀ p ∈ sortedItems m, (p.2 : List String).Sorted strLtP := by
  obtain ⟨hk, hv⟩ := load_inv hload
  have hk2 : (m.map Prod.fst).Nodup := processItems_nodup h hk
  have hv2 : ∀ p ∈ m, (p.2 : List String).Sorted strLtP :=
    processItems_values h (fun p hp => (hv p hp).1)
  exact ⟨sortedItems_strict hk2,
    fun p hp => hv2 p ((sortedItems_perm m).mem_iff.mp hp)⟩

set_option maxRecDepth 16384 in
/-- Witness for C6: one loaded additional bot plus the C10 source. -/
theorem c6_witness :
    (sortedItems [("Extra", ["1.2.3.4"]), ("Bot - Test", ["192.0.2.0-192.0.2.255"])]).Pairwise
      (fun p q => strLtP p.1 q.1) ∧
    ∀ p ∈ sortedItems [("Extra", ["1.2.3.4"]), ("Bot - Test", ["192.0.2.0-192.0.2.255"])],
      (p.2 : List String).Sorted strLtP :=
  c6_rendered_order c6config c10fetch [("Extra", ["1.2.3.4"])]
    [("Extra", ["1.2.3.4"]), ("Bot - Test", ["192.0.2.0-192.0.2.255"])]
    [c10item] 3 (by decide) (by decide)

/-- On a well-formed entry, `botStep` computes exactly the claim-side
description: skip when the processed range list is empty, otherwise store
the deduplicated sorted processed list under the entry's display name. -/
theorem botStep_eval {bot : Json} (acc : List (String × List String))
    (hwf : WFBot bot = true) :
    botStep acc bot = some (if specProcess (botStrRanges bot) = [] then acc
      else dictUpdate acc (botName bot) (sortedSet (specProcess (botStrRanges bot)))) := by
  cases bot with
  | null => simp [WFBot] at hwf
  | bool b => simp [WFBot] at hwf
  | num n => simp [WFBot] at hwf
  | str s => simp [WFBot] at hwf
  | arr l => simp [WFBot] at hwf
  | obj fs =>
    unfold WFBot at hwf
    rw [Bool.and_eq_true] at hwf
    obtain ⟨hn, hr⟩ := hwf
    obtain ⟨ns, hgd, hbn⟩ : ∃ ns,
        (fs.lookup "name").getD (.str "Unknown Bot") = .str ns ∧
        botName (.obj fs) = ns := by
      cases h1 : fs.lookup "name" with
      | none => exact ⟨"Unknown Bot", rfl, by simp [botName, h1]⟩
      | some v =>
        rw [h1] at hn
        cases v with
        | str s => exact ⟨s, by simp, by simp [botName, h1]⟩
        | null => simp at hn
        | bool b => simp at hn
        | num n => simp at hn
        | arr l => simp at hn
        | obj fs2 => simp at hn
    rw [hbn]
    unfold botStep
    simp only [Json.getD, hgd]
    cases h2 : fs.lookup "ip_ranges" with
    | none =>
      simp only [botStrRanges, h2]
      simp [Json.iterList, buildRanges, specProcess]
    | some v =>
      rw [h2] at hr
      cases v with
      | arr l =>
        simp only [botStrRanges, h2, Json.iterList, Option.getD_some]
        rw [buildRanges_str l [] (by simpa using hr)]
        simp only [List.nil_append]
        by_cases he : specProcess (l.filterMap asStr) = []
        · simp [he]
        · simp [he, List.isEmpty_iff]
      | null => simp at hr
      | bool b => simp at hr
      | num n => simp at hr
      | str s => simp at hr
      | obj fs2 => simp at hr

/-- Well-formed bots never crash the additional-bots fold. -/
theorem buildBots_total : ∀ {bots : List Json},
    (∀ b ∈ bots, WFBot b = true) →
    ∀ acc, ∃ m, buildBots bots acc = some m
  | [], _, acc => ⟨acc, rfl⟩
  | b :: bs, h, acc => by
    simp only [buildBots]
    rw [botStep_eval acc (h b (List.mem_cons_self b bs))]
    exact buildBots_total (fun b' hb' => h b' (List.mem_cons_of_mem b hb')) _

/-- Every binding produced by the additional-bots fold over well-formed
entries either was already in the accumulator or is the processed form of
one of the entries. -/
theorem buildBots_chara : ∀ {bots : List Json} {acc m : List (String × List String)},
    (∀ b ∈ bots, WFBot b = true) →
    buildBots bots acc = some m →
    ∀ p ∈ m, p ∈ acc ∨ ∃ b ∈ bots, botName b = p.1 ∧
      specProcess (botStrRanges b) ≠ [] ∧
      p.2 = sortedSet (specProcess (botStrRanges b))
  | [], acc, m, _, h, p, hp => by
    simp [buildBots] at h
    exact Or.inl (h ▸ hp)
  | b :: bs, acc, m, hwf, h, p, hp => by
    simp only [buildBots] at h
    rw [botStep_eval acc (hwf b (List.mem_cons_self b bs))] at h
    rcases buildBots_chara (fun x hx => hwf x (List.mem_cons_of_mem b hx)) h p hp
      with h2 | ⟨b', hb', h3⟩
    · by_cases he : specProcess (botStrRanges b) = []
      · rw [if_pos he] at h2
        exact Or.inl h2
      · rw [if_neg he] at h2
        rcases dictUpdate_mem h2 with h3 | h3
        · exact Or.inr ⟨b, List.mem_cons_self b bs, by rw [h3], he, by rw [h3]⟩
        · exact Or.inl h3
    · exact Or.inr ⟨b', List.mem_cons_of_mem b hb', h3⟩

/-- C7: for every parsed additional-bots document of the documented shape
(an `additional_bots` list of dicts whose `name`, when present, is a string
and whose `ip_ranges`, when present, is a list of strings), the loader
returns a mapping in which every value is a nonempty, deduplicated,
lexicographically sorted list obtained from one of the document's entries
by passing each '/'-containing element through the Range Normalizer
(dropping it on failure) and every other element through unchanged; bots
whose processed list is empty contribute no binding (every binding comes
from an entry with a nonempty processed list). -/
theorem c7_additional_bots (cfs : List (String × Json)) (bots : List Json)
    (hlook : cfs.lookup "additional_bots" = some (.arr bots))
    (hwf : ∀ b ∈ bots, WFBot b = true) :
    ∃ m, load_additional_bots (.obj cfs) = some m ∧
      (m.map Prod.fst).Nodup ∧
      ∀ p ∈ m, (p.2 : List String).Sorted strLtP ∧ p.2 ≠ [] ∧
        ∃ b ∈ bots, botName b = p.1 ∧ specProcess (botStrRanges b) ≠ [] ∧
          p.2 = sortedSet (specProcess (botStrRanges b)) := by
  obtain ⟨m, hm⟩ := buildBots_total hwf []
  have hload : load_additional_bots (.obj cfs) = some m := by
    unfold load_additional_bots
    simp only [Json.getD, hlook]
    simpa [Json.iterList] using hm
  obtain ⟨hk, hv⟩ := load_inv hload
  refine ⟨m, hload, hk, fun p hp => ⟨(hv p hp).1, (hv p hp).2, ?_⟩⟩
  rcases buildBots_chara hwf hm p hp with h2 | h2
  · simp at h2
  · exact h2

set_option maxRecDepth 16384 in
/-- Witness for C7 at a concrete document. -/
theorem c7_witness :
    ∃ m, load_additional_bots (.obj [("additional_bots", .arr c7bots)]) = some m ∧
      (m.map Prod.fst).Nodup ∧
      ∀ p ∈ m, (p.2 : List String).Sorted strLtP ∧ p.2 ≠ [] ∧
        ∃ b ∈ c7bots, botName b = p.1 ∧ specProcess (botStrRanges b) ≠ [] ∧
          p.2 = sortedSet (specProcess (botStrRanges b)) :=
  c7_additional_bots [("additional_bots", .arr c7bots)] c7bots rfl (by decide)
